import Mathlib

/-!
# Verification of the stage-1 CLI collection subsystem

Shallow embedding of `stage1_collect.py`: target expansion (`iter_targets`),
the `EXCLUDE_IPS` exclusion filter, vendor-profile resolution
(`profile_for_device_type` / `merge_commands_for`), the per-host candidate
loop of `gather_one` (deadline checks, SSH→Telnet transport order, per-command
execution), the vendor classifier (`vendor_hint_from_raw`,
`vendor_hint_for_ip`, autodetect fallback), the coordinator's result-harvest
loop, and the per-host deadline computation.

Network and filesystem effects are modelled by explicit oracles:
`time.time()` as a call-indexed stream of rationals, `is_port_open` on
port 23 as a call-indexed boolean stream, `ConnectHandler` as a function from
device-type string to either an error text or a session, and a session's
command sends as functions from command string to either output or error
text.  IPv4 addresses are 32-bit natural numbers; the dotted-quad parser
models the dotted-decimal/prefix forms of Python's `ipaddress` accepted by
the inputs this program handles.

String operations (split, trim, lower-case, decimal parse) are implemented
structurally over character lists so that every definition evaluates inside
the kernel; they mirror the semantics of the Python operations used in the
source (`str.split`, `str.strip`, `str.lower`, `int`/`float` parsing of
octets).
-/

/-! ## String primitives (models of the Python string operations used) -/

/-- Split a character list on a separator character
(model of Python `str.split(sep)` for a one-character separator). -/
def splitChar (sep : Char) : List Char → List (List Char)
  | [] => [[]]
  | c :: cs =>
    if c = sep then [] :: splitChar sep cs
    else
      match splitChar sep cs with
      | [] => [[c]]
      | p :: ps => (c :: p) :: ps

/-- Split a string on a separator character. -/
def strSplit (s : String) (sep : Char) : List String :=
  (splitChar sep s.data).map (fun l => ⟨l⟩)

/-- Whitespace test for trimming. -/
def isSpaceCh (c : Char) : Bool := c.isWhitespace

/-- Strip leading and trailing whitespace from a character list. -/
def trimList (l : List Char) : List Char :=
  ((l.dropWhile isSpaceCh).reverse.dropWhile isSpaceCh).reverse

/-- Model of Python `str.strip()`. -/
def strTrim (s : String) : String := ⟨trimList s.data⟩

/-- ASCII lower-casing of one character. -/
def lowerChar (c : Char) : Char :=
  if 'A' ≤ c ∧ c ≤ 'Z' then Char.ofNat (c.toNat + 32) else c

/-- Model of Python `str.lower()` (ASCII, which covers the keyword tables). -/
def strLower (s : String) : String := ⟨s.data.map lowerChar⟩

/-- Does the second list start with the first? -/
def leadsWith : List Char → List Char → Bool
  | [], _ => true
  | _ :: _, [] => false
  | p :: ps, c :: cs => p = c && leadsWith ps cs

/-- Contiguous-subsequence test on character lists. -/
def containsSeq (pat : List Char) : List Char → Bool
  | [] => leadsWith pat []
  | c :: cs => leadsWith pat (c :: cs) || containsSeq pat cs

/-- Model of Python `pat in hay` on strings. -/
def strContainsSub (hay pat : String) : Bool := containsSeq pat.data hay.data

/-- Decimal digit value. -/
def digitVal (c : Char) : Option Nat :=
  if '0' ≤ c ∧ c ≤ '9' then some (c.toNat - '0'.toNat) else none

/-- Accumulating decimal parse; `none` on any non-digit. -/
def decImpl : List Char → Option Nat → Option Nat
  | [], acc => acc
  | c :: cs, acc =>
    match digitVal c, acc with
    | some d, some n => decImpl cs (some (n * 10 + d))
    | _, _ => none

/-- Parse a non-empty all-digit list as a natural number. -/
def decToNat (l : List Char) : Option Nat :=
  match l with
  | [] => none
  | _ => decImpl l (some 0)

/-- Remove every (non-overlapping, left-to-right) occurrence of `pat`,
with explicit fuel for structural recursion
(model of Python `str.replace(pat, "")` for non-empty `pat`). -/
def removeSeqAux (pat : List Char) : Nat → List Char → List Char
  | 0, l => l
  | _ + 1, [] => []
  | fuel + 1, c :: cs =>
    if pat ≠ [] ∧ leadsWith pat (c :: cs) then
      removeSeqAux pat fuel (List.drop (pat.length - 1) cs)
    else c :: removeSeqAux pat fuel cs

/-- Model of Python `s.replace(pat, "")` for non-empty `pat`. -/
def strRemoveAll (s pat : String) : String :=
  ⟨removeSeqAux pat.data s.data.length s.data⟩

/-- Join a list of strings with a separator
(model of Python `sep.join(chunks)`). -/
def joinWith (sep : String) : List String → String
  | [] => ""
  | [s] => s
  | s :: rest => s ++ sep ++ joinWith sep rest

/-- First `n` characters of a string (model of Python `s[:n]`). -/
def strTake (s : String) (n : Nat) : String := ⟨s.data.take n⟩

/-! ## IPv4 addresses and networks (model of the `ipaddress` usages) -/

/-- Parse one decimal octet: digits only, value ≤ 255, no leading zeros. -/
def parseOctet (s : String) : Option Nat :=
  match decToNat s.data with
  | none => none
  | some n =>
    if n ≤ 255 ∧ (s.data.length = 1 ∨ s.data.head? ≠ some '0') then some n else none

/-- Parse a dotted-quad IPv4 address into its 32-bit value
(model of `ipaddress.ip_address` on the strings this program handles). -/
def parseIPv4 (s : String) : Option Nat :=
  match strSplit s '.' with
  | [a, b, c, d] =>
    match parseOctet a, parseOctet b, parseOctet c, parseOctet d with
    | some x, some y, some z, some w => some (((x * 256 + y) * 256 + z) * 256 + w)
    | _, _, _, _ => none
  | _ => none

/-- Dotted-quad string of a 32-bit address value (model of `str(ip)`). -/
def ipToString (n : Nat) : String :=
  toString (n / 2 ^ 24 % 256) ++ "." ++ toString (n / 2 ^ 16 % 256) ++ "." ++
    toString (n / 2 ^ 8 % 256) ++ "." ++ toString (n % 256)

/-- Parse a prefix length 0..32 (no leading zeros). -/
def parsePlen (s : String) : Option Nat :=
  match decToNat s.data with
  | none => none
  | some n =>
    if n ≤ 32 ∧ (s.data.length = 1 ∨ s.data.head? ≠ some '0') then some n else none

/-- Mask off the host bits of an address value for a prefix length. -/
def maskNet (v plen : Nat) : Nat := v / 2 ^ (32 - plen) * 2 ^ (32 - plen)

/-- Parse `a.b.c.d/p` or a bare address (prefix 32); host bits are masked off,
modelling `ipaddress.ip_network(.., strict=False)`. -/
def parseNetwork (s : String) : Option (Nat × Nat) :=
  match strSplit s '/' with
  | [a] => (parseIPv4 a).map (fun v => (v, 32))
  | [a, p] =>
    match parseIPv4 a, parsePlen p with
    | some v, some plen => some (maskNet v plen, plen)
    | _, _ => none
  | _ => none

/-- Membership of an address value in a network (model of `addr in net`). -/
def inNetwork (a : Nat) (net : Nat × Nat) : Bool :=
  a / 2 ^ (32 - net.2) = net.1 / 2 ^ (32 - net.2)

/-- Host addresses of a network in ascending address order
(model of `ipaddress.ip_network(..).hosts()` for IPv4). -/
def hostsOf (net : Nat × Nat) : List Nat :=
  if net.2 = 32 then [net.1]
  else if net.2 = 31 then [net.1, net.1 + 1]
  else (List.range (2 ^ (32 - net.2) - 2)).map (fun i => net.1 + 1 + i)

/-! ## Target Expander: `iter_targets` -/

/-- The literal-target loop of `iter_targets`: trims each token, skips empty
and already-seen ones, threads the `seen` set (modelled as a list).
Returns (final seen, yielded tokens). -/
def seedLoop (seen : List String) : List String → List String × List String
  | [] => (seen, [])
  | t :: ts =>
    let t' := strTrim t
    if t' = "" ∨ t' ∈ seen then seedLoop seen ts
    else
      let r := seedLoop (t' :: seen) ts
      (r.1, t' :: r.2)

/-- The inner host loop of `iter_targets`: yields `str(ip)` for each host not
already seen, threading the `seen` set. -/
def hostLoop (seen : List String) : List Nat → List String × List String
  | [] => (seen, [])
  | ip :: ips =>
    let s := ipToString ip
    if s ∈ seen then hostLoop seen ips
    else
      let r := hostLoop (s :: seen) ips
      (r.1, s :: r.2)

/-- The CIDR loop of `iter_targets`: trims, skips empty specs, parses each
network (a malformed spec raises in the source, aborting the run: `none`
here), and expands hosts through `hostLoop`. -/
def cidrLoop (seen : List String) : List String → Option (List String × List String)
  | [] => some (seen, [])
  | c :: cs =>
    let c' := strTrim c
    if c' = "" then cidrLoop seen cs
    else
      match parseNetwork c' with
      | none => none
      | some net =>
        let r := hostLoop seen (hostsOf net)
        match cidrLoop r.1 cs with
        | none => none
        | some r2 => some (r2.1, r.2 ++ r2.2)

/-- `iter_targets(seed_ips, cidrs)`: literal tokens first (deduplicated, in
given order), then each network's hosts in address order, skipping
already-seen strings.  `none` models the abort on a malformed CIDR. -/
def iter_targets (seeds cidrs : List String) : Option (List String) :=
  let r := seedLoop [] seeds
  match cidrLoop r.1 cidrs with
  | none => none
  | some r2 => some (r.2 ++ r2.2)

/-- Keep-first deduplication relative to a `seen` set, returning the final
seen set and the surviving elements. -/
def dedupGoP (seen : List String) : List String → List String × List String
  | [] => (seen, [])
  | x :: xs =>
    if x ∈ seen then dedupGoP seen xs
    else
      let r := dedupGoP (x :: seen) xs
      (r.1, x :: r.2)

/-- Keep-first deduplication of a list (spec-side description). -/
def dedupKeepFirst (l : List String) : List String := (dedupGoP [] l).2

/-- Spec-side hosts stream: every (trimmed, non-empty) network's host
addresses as strings, concatenated in given order. -/
def hostsStream : List String → Option (List String)
  | [] => some []
  | c :: cs =>
    let c' := strTrim c
    if c' = "" then hostsStream cs
    else
      match parseNetwork c' with
      | none => none
      | some net => (hostsStream cs).map (fun rest => (hostsOf net).map ipToString ++ rest)

/-- Description of the Target Expander following the spec's words: the
keep-first deduplication of the merged literal+range stream (cleaned literal
tokens in given order, then every range's hosts in address order). -/
def targetsSpec (seeds cidrs : List String) : Option (List String) :=
  let lits := (seeds.map strTrim).filter (· ≠ "")
  (hostsStream cidrs).map (fun hs => dedupKeepFirst (lits ++ hs))

/-! ## Exclusion filter (the `EXCLUDE_IPS` block of `main`) -/

/-- Split the raw `EXCLUDE_IPS` csv into trimmed, non-empty entries. -/
def excludeSpecsOfRaw (raw : String) : List String :=
  ((strSplit raw ',').map strTrim).filter (· ≠ "")

/-- Classify one exclusion entry, mirroring `main`:
a spec containing `/` is parsed as a network; a bare dotted-quad whose third
and fourth octet strings are `"0"` is widened to a `/16`, one whose fourth
octet string is `"0"` to a `/24`; anything else is parsed as a single
address and recorded by its normalized string.  A parse failure drops the
entry (warning only in the source). -/
def widenSpec (spec : String) : Option (Sum (Nat × Nat) String) :=
  if spec.data.contains '/' then (parseNetwork spec).map Sum.inl
  else
    match strSplit spec '.' with
    | [p0, p1, p2, p3] =>
      if p2 = "0" ∧ p3 = "0" then
        (parseNetwork (p0 ++ "." ++ p1 ++ ".0.0/16")).map Sum.inl
      else if p3 = "0" then
        (parseNetwork (p0 ++ "." ++ p1 ++ "." ++ p2 ++ ".0/24")).map Sum.inl
      else (parseIPv4 spec).map (fun a => Sum.inr (ipToString a))
    | _ => (parseIPv4 spec).map (fun a => Sum.inr (ipToString a))

/-- Build the exclusion sets: network list in entry order, plus the set
(modelled as a list) of normalized excluded address strings. -/
def buildExcludes (specs : List String) : List (Nat × Nat) × List String :=
  specs.foldl
    (fun acc spec =>
      match widenSpec spec with
      | some (Sum.inl net) => (acc.1 ++ [net], acc.2)
      | some (Sum.inr ip) => (acc.1, acc.2 ++ [ip])
      | none => acc)
    ([], [])

/-- The filtering loop of `main`: a target that does not parse as an IP
address is dropped; an excluded address (exact normalized match or inside an
excluded network) is dropped; survivors are kept as `str(ip)`. -/
def applyExcludes (nets : List (Nat × Nat)) (ips : List String) :
    List String → List String
  | [] => []
  | t :: ts =>
    match parseIPv4 t with
    | none => applyExcludes nets ips ts
    | some a =>
      if ipToString a ∈ ips then applyExcludes nets ips ts
      else if nets.any (fun n => inNetwork a n) then applyExcludes nets ips ts
      else ipToString a :: applyExcludes nets ips ts

/-- The whole exclusion pass of `main`: the filter runs only when at least
one exclusion entry parsed successfully (`if _exclude_networks or
_exclude_ips:`); otherwise the target list passes through untouched. -/
def exclusionPass (specs targets : List String) : List String :=
  let e := buildExcludes specs
  if e.1 ≠ [] ∨ e.2 ≠ [] then applyExcludes e.1 e.2 targets else targets

/-! ## Vendor profiles: `COMMANDS_BY_TYPE`, overrides, `merge_commands_for` -/

/-- A command profile as stored in `COMMANDS_BY_TYPE`: a Python dict with
optional keys `pre_enable`, `commands`, `extends`. -/
structure Profile where
  pre_enable : Option Bool
  commands : Option (List String)
  extendsBase : Option String
deriving DecidableEq, Repr

/-- The built-in `generic` profile (the table's guaranteed fallback key). -/
def genericProfile : Profile :=
  { pre_enable := some false
    commands := some ["show running-config", "show lldp neighbors detail"]
    extendsBase := none }

/-- The built-in command table `COMMANDS_BY_TYPE`. -/
def COMMANDS_BY_TYPE : List (String × Profile) :=
  [ ("cisco_ios",
      { pre_enable := some true
        commands := some
          ["show running-config", "show version", "show cdp neighbors detail",
           "show lldp neighbors detail", "show interface status"]
        extendsBase := none }),
    ("cisco_ios_telnet",
      { pre_enable := none, commands := none, extendsBase := some "cisco_ios" }),
    ("hp_procurve",
      { pre_enable := some false
        commands := some
          ["show running-config", "show system-information",
           "show lldp info remote-device detail", "show interfaces brief"]
        extendsBase := none }),
    ("hp_procurve_telnet",
      { pre_enable := none, commands := none, extendsBase := some "hp_procurve" }),
    ("juniper_junos",
      { pre_enable := some false
        commands := some
          ["show configuration | display set", "show version",
           "show lldp neighbors detail", "show interfaces terse",
           "show chassis hardware"]
        extendsBase := none }),
    ("juniper_junos_telnet",
      { pre_enable := none, commands := none, extendsBase := some "juniper_junos" }),
    ("generic", genericProfile),
    ("generic_telnet",
      { pre_enable := none, commands := none, extendsBase := some "generic" }) ]

/-- An external override loaded from `config/collect/<base>.json|.txt`
(`_load_external_profile`): possibly a `pre_enable` flag and possibly a
command list.  Modelled as an oracle from base name to override, since the
files are configuration input. -/
structure OverrideCfg where
  pre_enable : Option Bool
  commands : Option (List String)
deriving DecidableEq, Repr

/-- The no-override configuration (missing override files). -/
def noOverride : OverrideCfg := { pre_enable := none, commands := none }

/-- `profile_for_device_type`: look the type up in the table (falling back to
the base name with `_telnet` removed, then to `generic`), then apply the
external override for the base name: the flag replaces when present, the
command list replaces when present and non-empty (Python truthiness of
`override.get("commands")`). -/
def profile_for_device_type (ov : String → OverrideCfg) (device_type : String) : Profile :=
  let base := strRemoveAll device_type "_telnet"
  let prof :=
    match List.lookup device_type COMMANDS_BY_TYPE with
    | some p => p
    | none =>
      match List.lookup base COMMANDS_BY_TYPE with
      | some p => p
      | none => genericProfile
  let o := ov base
  let prof :=
    match o.pre_enable with
    | some b => { prof with pre_enable := some b }
    | none => prof
  match o.commands with
  | some cs => if cs ≠ [] then { prof with commands := some cs } else prof
  | none => prof

/-- `merge_commands_for`: resolve a one-level `extends` by copying the base
profile's fields and overlaying this profile's own present fields. -/
def merge_commands_for (ov : String → OverrideCfg) (device_type : String) : Profile :=
  let prof := profile_for_device_type ov device_type
  match prof.extendsBase with
  | some b =>
    let base := profile_for_device_type ov b
    { pre_enable := prof.pre_enable <|> base.pre_enable
      commands := prof.commands <|> base.commands
      extendsBase := base.extendsBase }
  | none => prof

/-- The effective command list used by an attempt:
`profile.get("commands", ["show running-config"])`. -/
def commandsOf (ov : String → OverrideCfg) (device_type : String) : List String :=
  (merge_commands_for ov device_type).commands.getD ["show running-config"]

/-- The effective elevation flag: `profile.get("pre_enable", False)`. -/
def preEnableOf (ov : String → OverrideCfg) (device_type : String) : Bool :=
  (merge_commands_for ov device_type).pre_enable.getD false

/-! ## Session Orchestrator: the candidate loop of `gather_one` -/

/-- Transport kind of a candidate attempt. -/
inductive Transport
  | ssh
  | telnet
deriving DecidableEq, Repr

/-- An open Netmiko session, as the orchestrator can observe it:
the response-aware `send_command`, the time-boxed non-prompt-aware
`send_command_timing` (offered by the library; see C2), and the outcome of
`enable()`. -/
structure Session where
  send_command : String → Except String String
  send_command_timing : String → Except String String
  enable : Except String Unit

/-- The environment one `gather_one` call runs against: the successive
`time.time()` readings, the successive in-loop `is_port_open(ip, 23, ..)`
results, and the `ConnectHandler` outcome per device-type string. -/
structure World where
  times : Nat → ℚ
  telnetOpen : Nat → Bool
  connect : String → Except String Session

/-- Credentials (`creds` dict). -/
structure Creds where
  user : String
  pass : String
  secret : String

/-- Fixed context of one `gather_one` call: the world oracles, credentials,
override configuration, the target address, and the absolute wall-clock
deadline (`time.time() + max(10.0, deadline_sec)`). -/
structure Ctx where
  world : World
  creds : Creds
  ov : String → OverrideCfg
  ip : String
  deadline : ℚ

/-- Observable events of the candidate loop, for stating which checks ran
and which sessions were opened. -/
inductive Ev
  | portCheck (ok : Bool)
  | deadlineHit
  | connect (tr : Transport) (dt : String)
deriving DecidableEq, Repr

/-- Mutable per-host state threaded through the loop: the `time.time()` call
index, the in-loop port-probe call index, the `errors` list, and the event
trace. -/
structure AttemptSt where
  tIdx : Nat
  pIdx : Nat
  errors : List String
  trace : List Ev
deriving Repr

/-- Initial per-host state with the pre-loop diagnostics (autodetect may have
appended one entry before the candidate loop starts). -/
def initSt (errs0 : List String) : AttemptSt :=
  { tIdx := 0, pIdx := 0, errors := errs0, trace := [] }

/-- The per-command loop (source lines 414–423): one response-aware
`send_command` per command; on an exception the bracketed error marker is
substituted; each block is prefixed with the `$ <command>` delimiter. -/
def runCommands (sess : Session) : List String → List String
  | [] => []
  | c :: cs =>
    let chunk :=
      match sess.send_command c with
      | Except.ok out => "\n\n$ " ++ c ++ "\n" ++ out
      | Except.error e => "\n\n$ " ++ c ++ "\n" ++ ("[ERROR executing command: " ++ e ++ "]")
    chunk :: runCommands sess cs

/-- One connect-and-collect attempt for a resolved device type: records the
session-open event; on `ConnectHandler` failure appends the diagnostic and
moves on (`inl`); on success optionally attempts `enable()` (a failure there
is a non-fatal diagnostic), runs every command, and returns the device type
together with the joined artifact text (`inr`). -/
def attemptOne (cx : Ctx) (tr : Transport) (dt : String) (st : AttemptSt) :
    Sum AttemptSt (AttemptSt × String × String) :=
  let st := { st with trace := st.trace ++ [Ev.connect tr dt] }
  match cx.world.connect dt with
  | Except.error e => Sum.inl { st with errors := st.errors ++ [dt ++ ": " ++ e] }
  | Except.ok sess =>
    let st :=
      if preEnableOf cx.ov dt ∧ cx.creds.secret ≠ "" then
        match sess.enable with
        | Except.ok _ => st
        | Except.error ee =>
          { st with errors := st.errors ++ [dt ++ ": enable() failed: " ++ ee] }
      else st
    let chunks := runCommands sess (commandsOf cx.ov dt)
    Sum.inr (st, dt, joinWith "\n" chunks)

/-- One candidate profile (source lines 371–438): transports in the fixed
order SSH then Telnet.  The SSH leg checks the deadline and attempts a
session.  The Telnet leg first probes port 23 (`continue` when closed), then
checks the deadline, then attempts `<base>_telnet`.  A deadline hit appends
`"deadline_exceeded"` and `break`s to the next candidate. -/
def runCandidate (cx : Ctx) (base_dt : String) (st : AttemptSt) :
    Sum AttemptSt (AttemptSt × String × String) :=
  let t := cx.world.times st.tIdx
  let st := { st with tIdx := st.tIdx + 1 }
  if cx.deadline < t then
    Sum.inl { st with errors := st.errors ++ ["deadline_exceeded"]
                      trace := st.trace ++ [Ev.deadlineHit] }
  else
    match attemptOne cx Transport.ssh base_dt st with
    | Sum.inr r => Sum.inr r
    | Sum.inl st =>
      let popen := cx.world.telnetOpen st.pIdx
      let st := { st with pIdx := st.pIdx + 1, trace := st.trace ++ [Ev.portCheck popen] }
      if popen = false then Sum.inl st
      else
        let t2 := cx.world.times st.tIdx
        let st := { st with tIdx := st.tIdx + 1 }
        if cx.deadline < t2 then
          Sum.inl { st with errors := st.errors ++ ["deadline_exceeded"]
                            trace := st.trace ++ [Ev.deadlineHit] }
        else attemptOne cx Transport.telnet (base_dt ++ "_telnet") st

/-- The outer candidate loop over the try order. -/
def runCandidates (cx : Ctx) : List String → AttemptSt →
    Sum AttemptSt (AttemptSt × String × String)
  | [], st => Sum.inl st
  | b :: bs, st =>
    match runCandidate cx b st with
    | Sum.inr r => Sum.inr r
    | Sum.inl st' => runCandidates cx bs st'

/-- A per-host outcome as returned by `gather_one`. -/
inductive HostOutcome
  | ok (ip : String) (device_type : String)
  | fail (ip : String) (errors : List String)
deriving DecidableEq, Repr

/-- Run the candidate loop and build the `gather_one` result: on success the
`ok` dict with the winning device type; once all candidates are exhausted,
the `fail` dict with `errors[:4]`.  The final state (diagnostics and event
trace) is returned alongside for stating properties. -/
def gatherFrom (cx : Ctx) (order : List String) (errs0 : List String) :
    HostOutcome × AttemptSt :=
  match runCandidates cx order (initSt errs0) with
  | Sum.inr (st, dt, _art) => (HostOutcome.ok cx.ip dt, st)
  | Sum.inl st => (HostOutcome.fail cx.ip (st.errors.take 4), st)

/-- The session-open events of a trace, in order. -/
def connectsOf : List Ev → List (Transport × String)
  | [] => []
  | Ev.connect tr dt :: evs => (tr, dt) :: connectsOf evs
  | _ :: evs => connectsOf evs

/-! ## Vendor Classifier (`_guess_vendor_from_text`, hints, autodetect) -/

/-- `_guess_vendor_from_text`: case-insensitive keyword scan in the fixed
source order, first match wins. -/
def guess_vendor_from_text (s : String) : Option String :=
  let t := strLower s
  if strContainsSub t "routeros" || strContainsSub t "mikrotik" then some "mikrotik"
  else if strContainsSub t "eltex" || strContainsSub t " mes" then some "eltex_mes"
  else if strContainsSub t "huawei" || strContainsSub t " vrp" then some "huawei_vrp"
  else if strContainsSub t "d-link" || strContainsSub t " dgs" || strContainsSub t " des-" then
    some "dlink"
  else if strContainsSub t "qtech" || strContainsSub t " qsw" then some "qtech"
  else if strContainsSub t "cisco ios" || strContainsSub t "ios-xe" || strContainsSub t "cisco" then
    some "cisco_ios"
  else none

/-- `vendor_hint_from_raw`: peek at the first 4000 characters of the prior
stored output `data/raw/<ip>.txt` (the file store is an oracle; a missing
file or read failure yields `none`). -/
def vendor_hint_from_raw (rawStore : String → Option String) (ip : String) : Option String :=
  match rawStore ip with
  | some content => guess_vendor_from_text (strTake content 4000)
  | none => none

/-- One entry of the loaded `vendor_hints.json` table. -/
def findHint (a : Nat) : List (String × String) → Option String
  | [] => none
  | (cidr, v) :: rest =>
    match parseNetwork cidr with
    | some net => if inNetwork a net then some v else findHint a rest
    | none => findHint a rest

/-- `vendor_hint_for_ip`: parse the address (failure yields `none`), then
return the first table entry whose (parseable) range contains it; malformed
entries are skipped. -/
def vendor_hint_for_ip (hints : List (String × String)) (ip : String) : Option String :=
  match parseIPv4 ip with
  | none => none
  | some a => findHint a hints

/-- `NETMIKO_TO_PROFILE`: translation from autodetected types to profiles. -/
def NETMIKO_TO_PROFILE : List (String × String) :=
  [ ("cisco_ios", "cisco_ios"), ("hp_procurve", "hp_procurve"),
    ("aruba_procurve", "hp_procurve"), ("juniper_junos", "juniper_junos"),
    ("juniper", "juniper_junos"), ("mikrotik_routeros", "generic"),
    ("huawei", "generic"), ("dlink_ds", "generic") ]

/-- `DEVICE_TRY_ORDER`: the fixed default profile try-order. -/
def DEVICE_TRY_ORDER : List String :=
  ["cisco_ios", "hp_procurve", "juniper_junos", "generic"]

/-- Conditions under which the active SSH autodetect runs
(`SSHDetect is not None and ssh_open and env("DETECT", "1").strip() != "0"`). -/
structure DetectEnv where
  sshDetectAvailable : Bool
  sshOpen : Bool
  detectFlag : String
  autodetect : Except String (Option String)

/-- Is active detection enabled and possible? -/
def detectionActive (de : DetectEnv) : Bool :=
  de.sshDetectAvailable && de.sshOpen && (strTrim de.detectFlag ≠ "0")

/-- The primary-device-type resolution of `gather_one` (source lines
334–361): the `PREFER_VENDOR` override, else the raw-file keyword hint, else
the range-hint table, else (when detection is active) the SSH autodetect
translated through `NETMIKO_TO_PROFILE` — whose failure is swallowed into a
diagnostic — else undetermined.  Returns the primary type (if any) and the
diagnostics appended along the way. -/
def composePrimary (pref : String) (rawStore : String → Option String)
    (hints : List (String × String)) (ip : String) (de : DetectEnv) :
    Option String × List String :=
  let p := strTrim pref
  if p ≠ "" then (some p, [])
  else
    match
      -- `vendor_hint_from_raw(ip) or vendor_hint_for_ip(ip)` (short-circuit)
      match vendor_hint_from_raw rawStore ip with
      | some h => some h
      | none => vendor_hint_for_ip hints ip
    with
    | some h => (some h, [])
    | none =>
      if detectionActive de then
        match de.autodetect with
        | Except.ok (some best) =>
          if best ≠ "" then (some ((List.lookup best NETMIKO_TO_PROFILE).getD best), [])
          else (none, [])
        | Except.ok none => (none, [])
        | Except.error e => (none, ["autodetect_ssh: " ++ e])
      else (none, [])

/-- The try-order composition (source lines 363–368): the resolved primary
type alone when determined, else the fixed default order. -/
def composeOrder (primary : Option String) : List String :=
  match primary with
  | some dt => [dt]
  | none => DEVICE_TRY_ORDER

/-! ## Concurrency & Progress Coordinator: the result-harvest loop -/

/-- The coordinator's harvest of completed worker tasks (source lines
592–618), modelled on the completion-ordered stream of task results: each
completed future is consumed by `fut.result()`, which re-raises any
exception the worker raised.  The surrounding `try` catches only
`TimeoutError` (the heartbeat path, which corresponds to no completion and
is not an element of this stream), so a worker exception propagates and
aborts the harvest: the model returns `Except.error` with that exception
text instead of the collected outcome list. -/
def collectResults : List (Except String HostOutcome) → Except String (List HostOutcome)
  | [] => Except.ok []
  | r :: rs =>
    match r with
    | Except.error e => Except.error e
    | Except.ok o =>
      match collectResults rs with
      | Except.ok os => Except.ok (o :: os)
      | Except.error e => Except.error e

/-! ## Per-host deadline (source lines 327–332) -/

/-- `deadline_sec`: the parsed `HOST_DEADLINE` value, or 120.0 when parsing
raises (`except Exception`). The parse result is modelled as an optional
rational. -/
def deadlineSecOf (parsed : Option ℚ) : ℚ :=
  match parsed with
  | some d => d
  | none => 120

/-- The effective per-host budget: `max(10.0, deadline_sec)` seconds added
to the attempt-start clock reading. -/
def effectiveHostDeadline (parsed : Option ℚ) : ℚ :=
  max 10 (deadlineSecOf parsed)

/-! ## Supporting lemmas -/

/-- Keep-first dedup distributes over append, threading the seen set. -/
theorem dedupGoP_append (a : List String) : ∀ (seen b : List String),
    dedupGoP seen (a ++ b) =
      ((dedupGoP (dedupGoP seen a).1 b).1,
       (dedupGoP seen a).2 ++ (dedupGoP (dedupGoP seen a).1 b).2) := by
  induction a with
  | nil => intro seen b; simp [dedupGoP]
  | cons x xs ih =>
    intro seen b
    by_cases hx : x ∈ seen <;> simp [dedupGoP, hx, ih]

/-- The literal loop is keep-first dedup of the cleaned token list. -/
theorem seedLoop_eq (ts : List String) : ∀ seen,
    seedLoop seen ts = dedupGoP seen ((ts.map strTrim).filter (· ≠ "")) := by
  induction ts with
  | nil => intro seen; simp [seedLoop, dedupGoP]
  | cons t ts ih =>
    intro seen
    by_cases h0 : strTrim t = ""
    · simp [seedLoop, h0, ih]
    · by_cases h1 : strTrim t ∈ seen <;>
        simp [seedLoop, h0, h1, ih, dedupGoP]

/-- The host loop is keep-first dedup of the stringified host list. -/
theorem hostLoop_eq (ips : List Nat) : ∀ seen,
    hostLoop seen ips = dedupGoP seen (ips.map ipToString) := by
  induction ips with
  | nil => intro seen; simp [hostLoop, dedupGoP]
  | cons ip ips ih =>
    intro seen
    by_cases hx : ipToString ip ∈ seen <;> simp [hostLoop, hx, ih, dedupGoP]

/-- The CIDR loop is keep-first dedup of the concatenated host stream. -/
theorem cidrLoop_eq (cs : List String) : ∀ seen,
    cidrLoop seen cs =
      match hostsStream cs with
      | none => none
      | some hs => some (dedupGoP seen hs) := by
  induction cs with
  | nil => intro seen; simp [cidrLoop, hostsStream, dedupGoP]
  | cons c cs ih =>
    intro seen
    by_cases h0 : strTrim c = ""
    · simp [cidrLoop, hostsStream, h0, ih]
    · cases hn : parseNetwork (strTrim c) with
      | none => simp [cidrLoop, hostsStream, h0, hn]
      | some net =>
        simp only [cidrLoop, hostsStream, h0, if_neg, hn, hostLoop_eq, ih]
        cases hs : hostsStream cs with
        | none => simp
        | some rest => simp [dedupGoP_append]

/-- `iter_targets` equals the spec-side description `targetsSpec`. -/
theorem iter_targets_eq_spec (seeds cidrs : List String) :
    iter_targets seeds cidrs = targetsSpec seeds cidrs := by
  simp only [iter_targets, targetsSpec, seedLoop_eq, cidrLoop_eq, dedupKeepFirst]
  cases hs : hostsStream cidrs with
  | none => simp
  | some hs' => simp [dedupGoP_append]

/-- Keep-first dedup emits no duplicates and nothing already seen. -/
theorem dedupGoP_nodup (l : List String) : ∀ seen,
    (dedupGoP seen l).2.Nodup ∧ ∀ x ∈ (dedupGoP seen l).2, x ∉ seen := by
  induction l with
  | nil => intro seen; simp [dedupGoP]
  | cons x xs ih =>
    intro seen
    by_cases hx : x ∈ seen
    · rw [dedupGoP, if_pos hx]; exact ih seen
    · rw [dedupGoP, if_neg hx]
      dsimp only
      constructor
      · rw [List.nodup_cons]
        exact ⟨fun hmem => (ih (x :: seen)).2 x hmem (List.mem_cons_self x seen),
          (ih (x :: seen)).1⟩
      · intro y hy
        rcases List.mem_cons.mp hy with rfl | hy'
        · exact hx
        · exact fun hsy => (ih (x :: seen)).2 y hy' (List.mem_cons_of_mem _ hsy)

/-- Every survivor of the exclusion filter is a normalized address string
whose value matches no excluded address and lies in no excluded network. -/
theorem applyExcludes_sound (nets : List (Nat × Nat)) (ips : List String)
    (ts : List String) : ∀ u ∈ applyExcludes nets ips ts,
    ∃ a, u = ipToString a ∧ ipToString a ∉ ips ∧
      ∀ n ∈ nets, inNetwork a n = false := by
  induction ts with
  | nil => intro u hu; simp [applyExcludes] at hu
  | cons t ts ih =>
    intro u hu
    rw [applyExcludes] at hu
    cases hp : parseIPv4 t with
    | none => simp only [hp] at hu; exact ih u hu
    | some a =>
      simp only [hp] at hu
      by_cases hip : ipToString a ∈ ips
      · rw [if_pos hip] at hu; exact ih u hu
      · rw [if_neg hip] at hu
        by_cases hnet : (nets.any fun n => inNetwork a n) = true
        · rw [if_pos hnet] at hu; exact ih u hu
        · rw [if_neg hnet] at hu
          rcases List.mem_cons.mp hu with rfl | hu'
          · refine ⟨a, rfl, hip, fun n hn => ?_⟩
            cases hbool : inNetwork a n with
            | false => rfl
            | true => exact absurd (List.any_eq_true.mpr ⟨n, hn, hbool⟩) hnet
          · exact ih u hu'

/-- Dropping a non-parseable token does not change the exclusion filter. -/
theorem applyExcludes_skip (nets : List (Nat × Nat)) (ips : List String)
    (t : String) (hp : parseIPv4 t = none) (pre : List String) :
    ∀ post, applyExcludes nets ips (pre ++ t :: post) =
      applyExcludes nets ips (pre ++ post) := by
  induction pre with
  | nil =>
    intro post
    simp only [List.nil_append]
    rw [applyExcludes]
    simp only [hp]
  | cons x xs ih =>
    intro post
    simp only [List.cons_append]
    rw [applyExcludes, applyExcludes]
    cases hx : parseIPv4 x with
    | none => simp only [hx]; exact ih post
    | some a =>
      simp only [hx]
      by_cases hip : ipToString a ∈ ips
      · rw [if_pos hip, if_pos hip]; exact ih post
      · rw [if_neg hip, if_neg hip]
        by_cases hnet : (nets.any fun n => inNetwork a n) = true
        · rw [if_pos hnet, if_pos hnet]; exact ih post
        · rw [if_neg hnet, if_neg hnet, ih post]

/-- The state a candidate attempt leaves behind (either way). -/
def afterState : Sum AttemptSt (AttemptSt × String × String) → AttemptSt
  | Sum.inl st => st
  | Sum.inr r => r.1

/-- Once the clock is past the deadline, one candidate is rejected at the
deadline check: one diagnostic, one event, no session. -/
theorem runCandidate_deadline (cx : Ctx) (b : String) (st : AttemptSt)
    (h : cx.deadline < cx.world.times st.tIdx) :
    runCandidate cx b st =
      Sum.inl { st with tIdx := st.tIdx + 1
                        errors := st.errors ++ ["deadline_exceeded"]
                        trace := st.trace ++ [Ev.deadlineHit] } := by
  simp only [runCandidate]
  rw [if_pos h]

/-- Once the clock is past the deadline, the whole candidate loop only
stacks deadline diagnostics and events. -/
theorem runCandidates_deadline (cx : Ctx) (hT : ∀ i, cx.deadline < cx.world.times i)
    (order : List String) : ∀ st,
    runCandidates cx order st =
      Sum.inl { st with tIdx := st.tIdx + order.length
                        errors := st.errors ++ order.map (fun _ => "deadline_exceeded")
                        trace := st.trace ++ order.map (fun _ => Ev.deadlineHit) } := by
  induction order with
  | nil => intro st; simp [runCandidates]
  | cons b bs ih =>
    intro st
    rw [runCandidates, runCandidate_deadline cx b st (hT st.tIdx)]
    simp only [ih]
    simp [AttemptSt.mk.injEq, List.append_assoc]
    omega

/-- A failed attempt comes exactly from a `ConnectHandler` failure: the
session-open event is recorded and the diagnostic appended. -/
theorem attemptOne_inl_spec (cx : Ctx) (tr : Transport) (dt : String)
    (st st' : AttemptSt) (h : attemptOne cx tr dt st = Sum.inl st') :
    ∃ e, cx.world.connect dt = Except.error e ∧
      st' = { st with trace := st.trace ++ [Ev.connect tr dt]
                      errors := st.errors ++ [dt ++ ": " ++ e] } := by
  simp only [attemptOne] at h
  cases hc : cx.world.connect dt with
  | error e =>
    simp only [hc, Sum.inl.injEq] at h
    exact ⟨e, rfl, h.symm⟩
  | ok sess =>
    simp only [hc] at h
    by_cases hpre : preEnableOf cx.ov dt = true ∧ cx.creds.secret ≠ ""
    · rw [if_pos hpre] at h
      cases he : sess.enable with
      | ok u => simp only [he] at h; exact absurd h (by simp)
      | error ee => simp only [he] at h; exact absurd h (by simp)
    · rw [if_neg hpre] at h
      exact absurd h (by simp)

/-- A successful attempt: the winning device type is returned together with
the joined artifact of the per-command outputs; the open event is recorded;
errors can only grow (the non-fatal `enable()` diagnostic); the other state
indices are untouched. -/
theorem attemptOne_inr_spec (cx : Ctx) (tr : Transport) (dt : String)
    (st st' : AttemptSt) (dt' art : String)
    (h : attemptOne cx tr dt st = Sum.inr (st', dt', art)) :
    dt' = dt ∧ st'.trace = st.trace ++ [Ev.connect tr dt] ∧
      (∃ d, st'.errors = st.errors ++ d) ∧
      st'.pIdx = st.pIdx ∧ st'.tIdx = st.tIdx ∧
      ∃ sess, cx.world.connect dt = Except.ok sess ∧
        art = joinWith "\n" (runCommands sess (commandsOf cx.ov dt)) := by
  simp only [attemptOne] at h
  cases hc : cx.world.connect dt with
  | error e =>
    simp only [hc] at h
    exact absurd h (by simp)
  | ok sess =>
    simp only [hc] at h
    by_cases hpre : preEnableOf cx.ov dt = true ∧ cx.creds.secret ≠ ""
    · rw [if_pos hpre] at h
      cases he : sess.enable with
      | ok u =>
        simp only [he, Sum.inr.injEq, Prod.mk.injEq] at h
        obtain ⟨h1, h2, h3⟩ := h
        subst h2
        exact ⟨rfl, by rw [← h1], ⟨[], by rw [← h1]; simp⟩, by rw [← h1],
          by rw [← h1], sess, rfl, h3.symm⟩
      | error ee =>
        simp only [he, Sum.inr.injEq, Prod.mk.injEq] at h
        obtain ⟨h1, h2, h3⟩ := h
        subst h2
        exact ⟨rfl, by rw [← h1], ⟨[dt ++ ": enable() failed: " ++ ee], by rw [← h1]⟩,
          by rw [← h1], by rw [← h1], sess, rfl, h3.symm⟩
    · rw [if_neg hpre] at h
      simp only [Sum.inr.injEq, Prod.mk.injEq] at h
      obtain ⟨h1, h2, h3⟩ := h
      subst h2
      exact ⟨rfl, by rw [← h1], ⟨[], by rw [← h1]; simp⟩, by rw [← h1],
        by rw [← h1], sess, rfl, h3.symm⟩

/-- A successful `ConnectHandler` always yields a successful attempt carrying
this device type and the joined command output — command failures never turn
the attempt into a failure. -/
theorem attemptOne_ok_spec (cx : Ctx) (tr : Transport) (dt : String) (st : AttemptSt)
    (sess : Session) (hc : cx.world.connect dt = Except.ok sess) :
    ∃ st', attemptOne cx tr dt st =
      Sum.inr (st', dt, joinWith "\n" (runCommands sess (commandsOf cx.ov dt))) := by
  simp only [attemptOne, hc]
  by_cases hpre : preEnableOf cx.ov dt = true ∧ cx.creds.secret ≠ ""
  · rw [if_pos hpre]
    cases he : sess.enable with
    | ok u => exact ⟨_, rfl⟩
    | error ee => exact ⟨_, rfl⟩
  · rw [if_neg hpre]
    exact ⟨_, rfl⟩

/-- A candidate that fails appends at least one diagnostic. -/
theorem runCandidate_inl_errors (cx : Ctx) (b : String) (st st' : AttemptSt)
    (h : runCandidate cx b st = Sum.inl st') :
    ∃ d, st'.errors = st.errors ++ d ∧ d ≠ [] := by
  simp only [runCandidate] at h
  split at h
  · simp only [Sum.inl.injEq] at h
    exact ⟨["deadline_exceeded"], by rw [← h], by simp⟩
  · split at h
    · exact absurd h (by simp)
    · next st2 heqA =>
      obtain ⟨e, hce, hst2⟩ := attemptOne_inl_spec _ _ _ _ _ heqA
      subst hst2
      split at h
      · simp only [Sum.inl.injEq] at h
        exact ⟨[b ++ ": " ++ e], by rw [← h], by simp⟩
      · split at h
        · simp only [Sum.inl.injEq] at h
          exact ⟨[b ++ ": " ++ e, "deadline_exceeded"], by rw [← h]; simp, by simp⟩
        · obtain ⟨e2, hce2, hst'⟩ := attemptOne_inl_spec _ _ _ _ _ h
          subst hst'
          exact ⟨[b ++ ": " ++ e, b ++ "_telnet" ++ ": " ++ e2], by simp, by simp⟩

/-- A fully failed candidate loop appends at least one diagnostic as soon as
there is at least one candidate. -/
theorem runCandidates_inl_errors (cx : Ctx) (order : List String) : ∀ st st',
    runCandidates cx order st = Sum.inl st' →
    ∃ d, st'.errors = st.errors ++ d ∧ (order ≠ [] → d ≠ []) := by
  induction order with
  | nil =>
    intro st st' h
    simp only [runCandidates, Sum.inl.injEq] at h
    exact ⟨[], by rw [← h]; simp, fun hcon => absurd rfl hcon⟩
  | cons b bs ih =>
    intro st st' h
    rw [runCandidates] at h
    cases hR : runCandidate cx b st with
    | inr r => rw [hR] at h; exact absurd h (by simp)
    | inl st1 =>
      simp only [hR] at h
      obtain ⟨d1, hd1, hne1⟩ := runCandidate_inl_errors cx b st st1 hR
      obtain ⟨d2, hd2, -⟩ := ih st1 st' h
      exact ⟨d1 ++ d2, by rw [hd2, hd1, List.append_assoc],
        fun _ h0 => hne1 (List.append_eq_nil.mp h0).1⟩

/-- A list of deadline events contains no session-open event. -/
theorem connectsOf_deadlineMap (order : List String) :
    connectsOf (order.map fun _ => Ev.deadlineHit) = [] := by
  induction order with
  | nil => rfl
  | cons b bs ih => simpa [connectsOf] using ih

/-- A replicated deadline event list contains no session-open event. -/
theorem connectsOf_replicate_dl (n : Nat) :
    connectsOf (List.replicate n Ev.deadlineHit) = [] := by
  induction n with
  | zero => rfl
  | succ k ih => simpa [List.replicate, connectsOf] using ih

/-! ## Concrete fixtures for witnesses and counterexamples -/

/-- A world where every `ConnectHandler` call fails to authenticate and the
port-23 probe always reports closed. -/
def failWorld : World :=
  { times := fun _ => 0, telnetOpen := fun _ => false,
    connect := fun _ => Except.error "auth failed" }

/-- Demo credentials. -/
def demoCreds : Creds := { user := "admin", pass := "pw", secret := "" }

/-- A context over `failWorld` with a comfortable deadline. -/
def failCtx : Ctx :=
  { world := failWorld, creds := demoCreds, ov := fun _ => noOverride,
    ip := "10.0.0.1", deadline := 100 }

/-- A context whose clock is already past its deadline. -/
def lateCtx : Ctx :=
  { failCtx with world := { failWorld with times := fun _ => 1000 }, deadline := 10 }

/-! ## Claim theorems -/

/-- C3: once the per-address wall-clock deadline is exceeded, no candidate
session attempt is started — the loop records no session-open event at all —
a `deadline_exceeded` diagnostic is recorded, and the host ends with status
fail carrying that diagnostic.  (`errs0` are the pre-loop diagnostics; the
source can have accumulated at most one — the swallowed autodetect error —
so its length is at most 3 and the diagnostic survives the `errors[:4]`
truncation.) -/
theorem stage1_deadline_enforcement (cx : Ctx) (order errs0 : List String)
    (hT : ∀ i, cx.deadline < cx.world.times i) (hO : order ≠ [])
    (hE : errs0.length ≤ 3) :
    connectsOf (gatherFrom cx order errs0).2.trace = [] ∧
    ∃ errs, (gatherFrom cx order errs0).1 = HostOutcome.fail cx.ip errs ∧
      "deadline_exceeded" ∈ errs := by
  unfold gatherFrom
  rw [runCandidates_deadline cx hT order (initSt errs0)]
  constructor
  · simp [initSt, connectsOf_deadlineMap, connectsOf_replicate_dl]
  · refine ⟨_, rfl, ?_⟩
    cases order with
    | nil => exact absurd rfl hO
    | cons b bs =>
      have h4 : (initSt errs0).errors.length ≤ 4 := by
        simp only [initSt]
        omega
      rw [List.take_append_eq_append_take, List.take_of_length_le h4]
      have hk : ∃ k, 4 - (initSt errs0).errors.length = k + 1 := by
        refine ⟨3 - (initSt errs0).errors.length, ?_⟩
        simp only [initSt]
        omega
      obtain ⟨k, hk⟩ := hk
      rw [List.map_cons, hk, List.take_succ_cons]
      exact List.mem_append_right _ (List.mem_cons_self _ _)

/-- Witness for C3 on a concrete expired-deadline world. -/
theorem stage1_deadline_enforcement_witness :
    connectsOf (gatherFrom lateCtx DEVICE_TRY_ORDER []).2.trace = [] ∧
    ∃ errs, (gatherFrom lateCtx DEVICE_TRY_ORDER []).1 = HostOutcome.fail lateCtx.ip errs ∧
      "deadline_exceeded" ∈ errs :=
  stage1_deadline_enforcement lateCtx DEVICE_TRY_ORDER []
    (fun _ => by norm_num [lateCtx, failWorld]) (by decide) (by decide)

/-- C5: a host for which every attempted candidate fails returns a `fail`
outcome whose diagnostic list is non-empty and truncated to at most 4
entries. -/
theorem stage1_all_fail_outcome (cx : Ctx) (order errs0 errs : List String)
    (hO : order ≠ [])
    (hRes : (gatherFrom cx order errs0).1 = HostOutcome.fail cx.ip errs) :
    errs ≠ [] ∧ errs.length ≤ 4 := by
  unfold gatherFrom at hRes
  cases hR : runCandidates cx order (initSt errs0) with
  | inr r =>
    obtain ⟨st1, dt1, art1⟩ := r
    rw [hR] at hRes
    exact absurd hRes (by simp)
  | inl st1 =>
    simp only [hR, HostOutcome.fail.injEq] at hRes
    obtain ⟨-, h2⟩ := hRes
    subst h2
    obtain ⟨d, hd, hne⟩ := runCandidates_inl_errors cx order _ _ hR
    have hnonempty : st1.errors ≠ [] := by
      rw [hd]
      intro h0
      exact hne hO (List.append_eq_nil.mp h0).2
    constructor
    · cases herr : st1.errors with
      | nil => exact absurd herr hnonempty
      | cons x xs => simp [herr]
    · rw [List.length_take]
      exact min_le_left _ _

/-- Witness for C5 on a concrete all-candidates-fail world. -/
theorem stage1_all_fail_outcome_witness :
    (["cisco_ios: auth failed", "hp_procurve: auth failed",
      "juniper_junos: auth failed", "generic: auth failed"] : List String) ≠ [] ∧
    (["cisco_ios: auth failed", "hp_procurve: auth failed",
      "juniper_junos: auth failed", "generic: auth failed"] : List String).length ≤ 4 :=
  stage1_all_fail_outcome failCtx DEVICE_TRY_ORDER [] _ (by decide) (by decide)

/-- A session answering one command and failing the other, with a working
non-prompt-aware fallback channel. -/
def sessMixed : Session :=
  { send_command := fun c =>
      if c = "show running-config" then Except.ok "hostname sw1"
      else Except.error "read timeout"
    send_command_timing := fun _ => Except.ok "RECOVERED"
    enable := Except.ok () }

/-- A context whose `ConnectHandler` always succeeds with `sessMixed`. -/
def okCtx : Ctx :=
  { failCtx with world := { failWorld with connect := fun _ => Except.ok sessMixed } }

/-- C6: within a successful session a command failure never aborts the host:
the chunk list has exactly one `$ <command>` delimiter block per command of
the resolved command list, in original order, carrying the returned text or
the bracketed error marker; and a successful `ConnectHandler` always ends in
a success result carrying the joined artifact, whatever the commands did. -/
theorem stage1_command_markers (sess : Session) (cmds : List String) (cx : Ctx)
    (tr : Transport) (dt : String) (st : AttemptSt)
    (h : cx.world.connect dt = Except.ok sess) :
    runCommands sess cmds = cmds.map (fun c => "\n\n$ " ++ c ++ "\n" ++
      (match sess.send_command c with
       | Except.ok out => out
       | Except.error e => "[ERROR executing command: " ++ e ++ "]")) ∧
    ∃ st', attemptOne cx tr dt st = Sum.inr (st', dt,
      joinWith "\n" (runCommands sess (commandsOf cx.ov dt))) := by
  constructor
  · induction cmds with
    | nil => rfl
    | cons c cs ih => cases hs : sess.send_command c <;> simp [runCommands, hs, ih]
  · exact attemptOne_ok_spec cx tr dt st sess h

/-- Witness for C6: a two-command run with one failing command still yields
one delimiter block per command, in order, and the host attempt succeeds. -/
theorem stage1_command_markers_witness :
    runCommands sessMixed ["show running-config", "show lldp neighbors detail"] =
      ["\n\n$ show running-config\nhostname sw1",
       "\n\n$ show lldp neighbors detail\n[ERROR executing command: read timeout]"] ∧
    ∃ st', attemptOne okCtx Transport.ssh "generic" (initSt []) = Sum.inr (st', "generic",
      joinWith "\n" (runCommands sessMixed (commandsOf okCtx.ov "generic"))) := by
  constructor
  · rw [(stage1_command_markers sessMixed
      ["show running-config", "show lldp neighbors detail"] okCtx Transport.ssh "generic"
      (initSt []) rfl).1]
    decide
  · exact (stage1_command_markers sessMixed
      ["show running-config", "show lldp neighbors detail"] okCtx Transport.ssh "generic"
      (initSt []) rfl).2

/-- A session whose prompt-aware send times out and whose fallback channel
also fails. -/
def sDead : Session :=
  { send_command := fun _ => Except.error "read timeout"
    send_command_timing := fun _ => Except.error "also timed out"
    enable := Except.ok () }

/-- Identical prompt-aware behaviour, but the fallback channel would
succeed. -/
def sRecover : Session :=
  { send_command := fun _ => Except.error "read timeout"
    send_command_timing := fun _ => Except.ok "RECOVERED"
    enable := Except.ok () }

/-- C2 (amended): when the response-aware send raises, the command is
recorded immediately with the bracketed error marker; no second,
non-prompt-aware send is attempted — the collected output depends only on
the response-aware channel. -/
theorem stage1_no_fallback_retry (s1 s2 : Session) (cmds : List String)
    (h : s1.send_command = s2.send_command) :
    runCommands s1 cmds = runCommands s2 cmds ∧
    (∀ c e, s1.send_command c = Except.error e →
      runCommands s1 [c] =
        ["\n\n$ " ++ c ++ "\n" ++ ("[ERROR executing command: " ++ e ++ "]")]) := by
  constructor
  · induction cmds with
    | nil => rfl
    | cons c cs ih => simp [runCommands, h, ih]
  · intro c e he
    simp [runCommands, he]

/-- Witness for C2's amended statement: two sessions with the same
response-aware channel produce the same output, and a raising send yields
the error-marker block. -/
theorem stage1_no_fallback_retry_witness :
    runCommands sDead ["show clock"] = runCommands sRecover ["show clock"] ∧
    (∀ c e, sDead.send_command c = Except.error e →
      runCommands sDead [c] =
        ["\n\n$ " ++ c ++ "\n" ++ ("[ERROR executing command: " ++ e ++ "]")]) :=
  stage1_no_fallback_retry sDead sRecover ["show clock"] rfl

/-- C2 counterexample: the response-aware send fails while the time-boxed
non-prompt-aware channel would return `RECOVERED`; the orchestrator still
records the error marker, and its output is identical to a session whose
fallback channel is dead — so no retry through the fallback send happens
before the failure marker is recorded, contrary to the claim. -/
theorem stage1_no_fallback_retry_counterexample :
    runCommands sRecover ["show clock"] =
      ["\n\n$ show clock\n[ERROR executing command: read timeout]"] ∧
    runCommands sRecover ["show clock"] = runCommands sDead ["show clock"] := by
  constructor
  · decide
  · decide

/-- C1 (amended): the coordinator's harvest loop collects every completed
task's outcome when no task raises; but the first worker exception
re-raised by `fut.result()` propagates (only `TimeoutError` is caught),
aborting the harvest instead of being converted into a DONE(fail) outcome. -/
theorem coordinator_collect_behavior :
    (∀ outs : List HostOutcome, collectResults (outs.map Except.ok) = Except.ok outs) ∧
    (∀ (pre : List HostOutcome) (e : String) (rest : List (Except String HostOutcome)),
      collectResults (pre.map Except.ok ++ Except.error e :: rest) = Except.error e) := by
  constructor
  · intro outs
    induction outs with
    | nil => rfl
    | cons o os ih => simp [collectResults, ih]
  · intro pre e rest
    induction pre with
    | nil => rfl
    | cons o os ih => simp [collectResults, ih]

/-- C1 counterexample: one worker finishing normally and one raising — the
harvest result is the propagated exception, not an outcome list in which the
raising host appears as DONE(fail); the run does not continue. -/
theorem coordinator_collect_counterexample :
    collectResults [Except.ok (HostOutcome.ok "10.0.0.1" "cisco_ios"),
        Except.error "ValueError: boom"] =
      Except.error "ValueError: boom" := rfl

/-- C10: the effective per-host budget is `max(10.0, d)` seconds for a
parsed `HOST_DEADLINE` value `d`, falls back to 120 seconds when the value
does not parse, and is never below 10 seconds. -/
theorem stage1_deadline_floor :
    (∀ d : ℚ, effectiveHostDeadline (some d) = max 10 d) ∧
    effectiveHostDeadline none = 120 ∧
    ∀ parsed : Option ℚ, 10 ≤ effectiveHostDeadline parsed := by
  refine ⟨fun d => rfl, ?_, fun parsed => le_max_left _ _⟩
  norm_num [effectiveHostDeadline, deadlineSecOf]

/-- C9: with at least one successfully parsed exclusion entry, any target
token that does not parse as an IP address is silently dropped by the
filter, even though no exclusion entry matches it; with no parsed exclusion
entry the target list is left untouched, keeping such tokens. -/
theorem stage1_hostname_drop (specs pre post : List String) (t : String)
    (hp : parseIPv4 t = none) :
    (((buildExcludes specs).1 ≠ [] ∨ (buildExcludes specs).2 ≠ []) →
      exclusionPass specs (pre ++ t :: post) = exclusionPass specs (pre ++ post)) ∧
    ((buildExcludes specs).1 = [] ∧ (buildExcludes specs).2 = [] →
      exclusionPass specs (pre ++ t :: post) = pre ++ t :: post) := by
  constructor
  · intro hne
    simp only [exclusionPass]
    rw [if_pos hne, if_pos hne]
    exact applyExcludes_skip _ _ t hp pre post
  · intro hz
    simp only [exclusionPass]
    rw [if_neg (by simp [hz.1, hz.2])]

/-- Witness for C9: the entry `10.0.0.1` parses, so the hostname
`switch-core.local` is dropped although nothing excludes it; with an empty
exclusion list it is kept. -/
theorem stage1_hostname_drop_witness :
    exclusionPass ["10.0.0.1"] (["10.0.0.2"] ++ "switch-core.local" :: []) =
      exclusionPass ["10.0.0.1"] (["10.0.0.2"] ++ []) ∧
    exclusionPass [] (["10.0.0.2"] ++ "switch-core.local" :: []) =
      ["10.0.0.2"] ++ "switch-core.local" :: [] :=
  ⟨(stage1_hostname_drop ["10.0.0.1"] ["10.0.0.2"] [] "switch-core.local" (by decide)).1
      (by decide),
   (stage1_hostname_drop [] ["10.0.0.2"] [] "switch-core.local" (by decide)).2
      (by decide)⟩

/-- C7: vendor classification resolves by priority with first match winning —
(1) the global `PREFER_VENDOR` override, (2) the keyword scan of the leading
portion of the prior stored output, (3) the range-hint table, (4) active SSH
autodetect when available/enabled, translated through `NETMIKO_TO_PROFILE`,
(5) otherwise the fixed `DEVICE_TRY_ORDER`; and every detection failure
degrades to the default order (with a swallowed diagnostic), never a raise —
every branch of the total function below yields a try order. -/
theorem stage1_classifier_priority (pref : String) (rawStore : String → Option String)
    (hints : List (String × String)) (ip : String) (de : DetectEnv) :
    (strTrim pref ≠ "" →
      composeOrder (composePrimary pref rawStore hints ip de).1 = [strTrim pref]) ∧
    (∀ v, strTrim pref = "" → vendor_hint_from_raw rawStore ip = some v →
      composeOrder (composePrimary pref rawStore hints ip de).1 = [v]) ∧
    (∀ v, strTrim pref = "" → vendor_hint_from_raw rawStore ip = none →
      vendor_hint_for_ip hints ip = some v →
      composeOrder (composePrimary pref rawStore hints ip de).1 = [v]) ∧
    (∀ best, strTrim pref = "" → vendor_hint_from_raw rawStore ip = none →
      vendor_hint_for_ip hints ip = none → detectionActive de = true →
      de.autodetect = Except.ok (some best) → best ≠ "" →
      composeOrder (composePrimary pref rawStore hints ip de).1 =
        [(List.lookup best NETMIKO_TO_PROFILE).getD best]) ∧
    (strTrim pref = "" → vendor_hint_from_raw rawStore ip = none →
      vendor_hint_for_ip hints ip = none → detectionActive de = false →
      composePrimary pref rawStore hints ip de = (none, []) ∧
      composeOrder (composePrimary pref rawStore hints ip de).1 = DEVICE_TRY_ORDER) ∧
    (∀ e, strTrim pref = "" → vendor_hint_from_raw rawStore ip = none →
      vendor_hint_for_ip hints ip = none → detectionActive de = true →
      de.autodetect = Except.error e →
      composePrimary pref rawStore hints ip de = (none, ["autodetect_ssh: " ++ e]) ∧
      composeOrder (composePrimary pref rawStore hints ip de).1 = DEVICE_TRY_ORDER) := by
  refine ⟨?_, ?_, ?_, ?_, ?_, ?_⟩
  · intro hp
    simp [composePrimary, hp, composeOrder]
  · intro v hp hraw
    simp [composePrimary, hp, hraw, composeOrder]
  · intro v hp hraw hrange
    simp [composePrimary, hp, hraw, hrange, composeOrder]
  · intro best hp hraw hrange hdet hauto hbest
    simp [composePrimary, hp, hraw, hrange, hdet, hauto, hbest, composeOrder]
  · intro hp hraw hrange hdet
    simp [composePrimary, hp, hraw, hrange, hdet, composeOrder]
  · intro e hp hraw hrange hdet hauto
    simp [composePrimary, hp, hraw, hrange, hdet, hauto, composeOrder]

/-- A prior-output store that recalls a RouterOS banner for every address. -/
def rawStoreMikrotik : String → Option String :=
  fun _ => some "MikroTik RouterOS 6.49 on RB2011"

/-- Witness for C7: with no override, the stored-output keyword scan wins
and selects the `mikrotik` profile as the only candidate. -/
theorem stage1_classifier_priority_witness :
    composeOrder (composePrimary "" rawStoreMikrotik [] "10.0.0.9"
      ⟨true, true, "1", Except.ok none⟩).1 = ["mikrotik"] :=
  (stage1_classifier_priority "" rawStoreMikrotik [] "10.0.0.9"
      ⟨true, true, "1", Except.ok none⟩).2.1
    "mikrotik" (by decide) (by decide)

/-- C4 (amended): for each candidate profile the transports are tried in the
fixed order SSH then Telnet — a candidate opens no session, only the SSH
session, or the SSH then the Telnet session — and a Telnet session is opened
only after the port-23 probe reported open.  No profile is exempt from the
skip: this holds for every device-type string. -/
theorem stage1_transport_order (cx : Ctx) (b : String) (st : AttemptSt) :
    ∃ d, (afterState (runCandidate cx b st)).trace = st.trace ++ d ∧
      (connectsOf d = [] ∨ connectsOf d = [(Transport.ssh, b)] ∨
       connectsOf d = [(Transport.ssh, b), (Transport.telnet, b ++ "_telnet")]) ∧
      ((Transport.telnet, b ++ "_telnet") ∈ connectsOf d → Ev.portCheck true ∈ d) := by
  cases hR : runCandidate cx b st with
  | inl stf =>
    simp only [runCandidate] at hR
    split at hR
    · simp only [Sum.inl.injEq] at hR
      subst hR
      exact ⟨[Ev.deadlineHit], by simp [afterState], Or.inl rfl, by simp [connectsOf]⟩
    · split at hR
      · exact absurd hR (by simp)
      · next st2 heqA =>
        obtain ⟨e, hce, hst2⟩ := attemptOne_inl_spec _ _ _ _ _ heqA
        subst hst2
        split at hR
        · next hpop =>
          simp only [Sum.inl.injEq] at hR
          subst hR
          refine ⟨[Ev.connect Transport.ssh b, Ev.portCheck false], ?_,
            Or.inr (Or.inl (by simp [connectsOf])), ?_⟩
          · simp [afterState, hpop]
          · intro hm
            simp [connectsOf] at hm
        · next hpop =>
          rw [Bool.not_eq_false] at hpop
          split at hR
          · simp only [Sum.inl.injEq] at hR
            subst hR
            refine ⟨[Ev.connect Transport.ssh b, Ev.portCheck true, Ev.deadlineHit], ?_,
              Or.inr (Or.inl (by simp [connectsOf])), ?_⟩
            · simp [afterState, hpop]
            · intro hm
              simp [connectsOf] at hm
          · obtain ⟨e2, hce2, hstf⟩ := attemptOne_inl_spec _ _ _ _ _ hR
            subst hstf
            refine ⟨[Ev.connect Transport.ssh b, Ev.portCheck true,
              Ev.connect Transport.telnet (b ++ "_telnet")], ?_,
              Or.inr (Or.inr (by simp [connectsOf])), ?_⟩
            · simp [afterState, hpop]
            · intro hm
              simp
  | inr r =>
    obtain ⟨st2, dt2, art2⟩ := r
    simp only [runCandidate] at hR
    split at hR
    · exact absurd hR (by simp)
    · split at hR
      · next r0 heqA =>
        rw [hR] at heqA
        obtain ⟨hdt, htr, -, -, -, -⟩ := attemptOne_inr_spec _ _ _ _ _ _ _ heqA
        refine ⟨[Ev.connect Transport.ssh b], ?_,
          Or.inr (Or.inl (by simp [connectsOf])), ?_⟩
        · simpa [afterState] using htr
        · intro hm
          simp [connectsOf] at hm
      · next st3 heqA =>
        obtain ⟨e, hce, hst3⟩ := attemptOne_inl_spec _ _ _ _ _ heqA
        subst hst3
        split at hR
        · exact absurd hR (by simp)
        · next hpop =>
          rw [Bool.not_eq_false] at hpop
          split at hR
          · exact absurd hR (by simp)
          · obtain ⟨hdt, htr, -, -, -, -⟩ := attemptOne_inr_spec _ _ _ _ _ _ _ hR
            refine ⟨[Ev.connect Transport.ssh b, Ev.portCheck true,
              Ev.connect Transport.telnet (b ++ "_telnet")], ?_,
              Or.inr (Or.inr (by simp [connectsOf])), ?_⟩
            · simp only [afterState]
              rw [htr]
              simp [hpop]
            · intro hm
              simp

/-- C4 counterexample: with the port-23 probe reporting closed at every
check, every profile of the default try order is denied its Telnet attempt —
the loop opens exactly the four SSH sessions and no Telnet session, so no
profile behaves as "exempted from the skip rule" (no such exemption exists
in the code). -/
theorem stage1_no_telnet_exemption_counterexample :
    connectsOf (gatherFrom failCtx DEVICE_TRY_ORDER []).2.trace =
      [(Transport.ssh, "cisco_ios"), (Transport.ssh, "hp_procurve"),
       (Transport.ssh, "juniper_junos"), (Transport.ssh, "generic")] := by
  decide

/-- Witness for C4's amended statement at a concrete candidate. -/
theorem stage1_transport_order_witness :
    ∃ d, (afterState (runCandidate failCtx "cisco_ios" (initSt []))).trace =
        (initSt []).trace ++ d ∧
      (connectsOf d = [] ∨ connectsOf d = [(Transport.ssh, "cisco_ios")] ∨
       connectsOf d = [(Transport.ssh, "cisco_ios"),
         (Transport.telnet, "cisco_ios" ++ "_telnet")]) ∧
      ((Transport.telnet, "cisco_ios" ++ "_telnet") ∈ connectsOf d →
        Ev.portCheck true ∈ d) :=
  stage1_transport_order failCtx "cisco_ios" (initSt [])

/-- C8: the Target Expander yields exactly the keep-first deduplication of
the literal tokens (in given order) followed by every range's hosts (in
address order): `targetsSpec`, the rendering of the spec's words; the result
has no duplicates; and after the exclusion pass every surviving entry is a
normalized address that matches no excluded address string and lies in no
excluded network. -/
theorem stage1_target_expansion (seeds cidrs specs : List String) (l : List String)
    (h : iter_targets seeds cidrs = some l) :
    targetsSpec seeds cidrs = some l ∧ l.Nodup ∧
    ∀ u ∈ exclusionPass specs l,
      ((buildExcludes specs).1 ≠ [] ∨ (buildExcludes specs).2 ≠ []) →
      ∃ a, u = ipToString a ∧ ipToString a ∉ (buildExcludes specs).2 ∧
        ∀ n ∈ (buildExcludes specs).1, inNetwork a n = false := by
  have hspec : targetsSpec seeds cidrs = some l := by
    rw [← iter_targets_eq_spec]; exact h
  refine ⟨hspec, ?_, ?_⟩
  · simp only [targetsSpec] at hspec
    cases hs : hostsStream cidrs with
    | none => rw [hs] at hspec; simp at hspec
    | some hs' =>
      rw [hs] at hspec
      simp only [Option.map_some', Option.some.injEq] at hspec
      rw [← hspec]
      exact (dedupGoP_nodup _ _).1
  · intro u hu hne
    simp only [exclusionPass] at hu
    rw [if_pos hne] at hu
    exact applyExcludes_sound _ _ _ u hu

/-- Witness for C8 on a concrete literal+range input with one exclusion. -/
theorem stage1_target_expansion_witness :
    targetsSpec ["10.0.0.1", "hostA", "10.0.0.1"] ["10.0.0.0/30"] =
      some ["10.0.0.1", "hostA", "10.0.0.2"] ∧
    (["10.0.0.1", "hostA", "10.0.0.2"] : List String).Nodup ∧
    ∀ u ∈ exclusionPass ["10.0.0.2"] ["10.0.0.1", "hostA", "10.0.0.2"],
      ((buildExcludes ["10.0.0.2"]).1 ≠ [] ∨ (buildExcludes ["10.0.0.2"]).2 ≠ []) →
      ∃ a, u = ipToString a ∧ ipToString a ∉ (buildExcludes ["10.0.0.2"]).2 ∧
        ∀ n ∈ (buildExcludes ["10.0.0.2"]).1, inNetwork a n = false :=
  stage1_target_expansion ["10.0.0.1", "hostA", "10.0.0.1"] ["10.0.0.0/30"]
    ["10.0.0.2"] ["10.0.0.1", "hostA", "10.0.0.2"] (by decide)
